import Mathlib

/-!
Verification of the sitecheck concurrent website status checker
(src/final_project_sitecheck/src/main.rs), as a shallow embedding.

Conventions of the embedding:
* Durations are natural numbers of milliseconds.
* Rust `Result<A, String>` becomes `Except String A`.
* `f64` arithmetic in the statistics derivations is modelled over `ℚ`.
* Network nondeterminism is a parameter: one fetch attempt is a function
  from the attempt index to its outcome; `Utc::now()` is a clock value
  passed in as a parameter.
* `u64`/`u128` counters are modelled as `Nat` (no claim here depends on
  wrap-around behaviour).
-/

namespace Sitecheck

/-- Embeds `WebsiteStatus` (main.rs lines 15-21): `status` is
`Result<u16, String>`, `response_time` a duration in ms, `timestamp` the
clock value read via `Utc::now()`. -/
structure WebsiteStatus where
  url : String
  status : Except String Nat
  response_time : Nat
  timestamp : Nat
  deriving Repr

/-- Embeds `UrlStats` (main.rs lines 34-39). -/
structure UrlStats where
  checks : Nat
  successes : Nat
  total_response_ms : Nat
  deriving Repr, DecidableEq

/-- The `Default` derive for `UrlStats`: all counters zero. -/
def UrlStats.init : UrlStats := ⟨0, 0, 0⟩

/-- Embeds `UrlStats::record` (main.rs lines 41-47). -/
def UrlStats.record (s : UrlStats) (ok : Bool) (rt : Nat) : UrlStats :=
  { checks := s.checks + 1
    successes := if ok then s.successes + 1 else s.successes
    total_response_ms := s.total_response_ms + rt }

/-- Embeds `UrlStats::uptime` (main.rs lines 48-50); the `f64` value
`(successes as f64) * 100.0 / (checks as f64)` is modelled over `ℚ`. -/
def UrlStats.uptime (s : UrlStats) : ℚ :=
  if s.checks = 0 then 0 else (s.successes : ℚ) * 100 / (s.checks : ℚ)

/-- Embeds `UrlStats::avg_ms` (main.rs lines 51-53); `f64` modelled over `ℚ`. -/
def UrlStats.avg_ms (s : UrlStats) : ℚ :=
  if s.checks = 0 then 0 else (s.total_response_ms : ℚ) / (s.checks : ℚ)

/-- Folds a sequence of `record` calls over a stats value (any sequence of
aggregator updates). -/
def applyRecords (s : UrlStats) (ops : List (Bool × Nat)) : UrlStats :=
  ops.foldl (fun acc op => acc.record op.1 op.2) s

/-- `p.data.isEmpty`-style check that `pat` occurs at the start of `s`
(character lists). -/
def listStarts : List Char → List Char → Bool
  | [], _ => true
  | _ :: _, [] => false
  | p :: ps, c :: cs => p = c && listStarts ps cs

/-- `pat` occurs somewhere inside `s` (character lists). -/
def listHasSub (pat : List Char) : List Char → Bool
  | [] => pat.isEmpty
  | c :: rest => listStarts pat (c :: rest) || listHasSub pat rest

/-- Rust `str::contains` on string slices: substring occurrence. -/
def strContains (s pat : String) : Bool :=
  listHasSub pat.data s.data

/-- An HTTP response as the Check Engine observes it: status code, header
list, and the body as delivered by `into_string()` (which may itself fail,
giving the `body read error` path). -/
structure Response where
  status : Nat
  headers : List (String × String)
  body : Except String String
  deriving Repr

/-- ASCII lowercasing of a string, character by character (header names
are ASCII). -/
def lowerStr (s : String) : String := String.mk (s.data.map Char.toLower)

/-- `resp.header(name)` in ureq: case-insensitive lookup of a response
header by name (main.rs line 175). -/
def headerLookup (headers : List (String × String)) (name : String) : Option String :=
  (headers.find? (fun p => lowerStr p.1 = lowerStr name)).map Prod.snd

/-- The header-validation loop of `fetch_once` (main.rs lines 172-185):
for each (name, expected value) pair, look the header up
case-insensitively; missing header and value mismatch short-circuit with
the corresponding reason string. -/
def checkHeaders (respHeaders : List (String × String)) :
    List (String × String) → Except String Unit
  | [] => Except.ok ()
  | (name, value) :: rest =>
    match headerLookup respHeaders name with
    | some v =>
      if v = value then checkHeaders respHeaders rest
      else Except.error ("header mismatch: " ++ name ++ " expected '" ++ value ++ "' got '" ++ v ++ "'")
    | none => Except.error ("missing required header: " ++ name)

/-- Embeds `fetch_once` (main.rs lines 158-204). The transport outcome is
the parameter `resp` (`Err` is a request error); `elapsed` stands for
`start.elapsed()`. Header validation runs first; then, only if a body
substring is configured, the body is read (`into_string()`, which may fail
with a body read error) and searched; with no substring configured the
body value is never inspected. -/
def fetch_once (resp : Except String Response)
    (headers_expected : List (String × String)) (contains : Option String)
    (elapsed : Nat) : Except String (Nat × Nat) :=
  match resp with
  | Except.error e => Except.error ("request error: " ++ e)
  | Except.ok r =>
    match checkHeaders r.headers headers_expected with
    | Except.error e => Except.error e
    | Except.ok _ =>
      match contains with
      | some needle =>
        match r.body with
        | Except.error e => Except.error ("body read error: " ++ e)
        | Except.ok body =>
          if strContains body needle then Except.ok (r.status, elapsed)
          else Except.error ("body validation failed: missing substring '" ++ needle ++ "'")
      | none => Except.ok (r.status, elapsed)

/-- Execution trace of `check_with_retries`: the returned status, the
number of `fetch_once` invocations, and the backoff sleeps performed, in
order, in milliseconds. -/
structure RetryTrace where
  result : WebsiteStatus
  calls : Nat
  sleeps : List Nat
  deriving Repr

/-- The retry loop of `check_with_retries` (main.rs lines 214-233).
`fetch` gives attempt number ↦ outcome of that `fetch_once` call. `fuel`
is the number of attempts still permitted (`max_retries + 1 - attempt`),
so the loop guard `attempt <= max_retries` is `0 < fuel`, and the backoff
guard `attempt < max_retries` at the node consuming one unit of fuel is
`0 < fuel - 1`. On failure the loop sleeps `200 * (attempt + 1)` ms
unless this was the last permitted attempt; when fuel runs out it returns
`Err(last_err.unwrap_or("unknown error"))` with zero elapsed time
(main.rs lines 234-239). -/
def retryGo (fetch : Nat → Except String (Nat × Nat)) (url : String)
    (now : Nat) : Nat → Nat → Option String → RetryTrace
  | 0, _, last_err =>
    { result := { url := url, status := Except.error (last_err.getD "unknown error")
                  response_time := 0, timestamp := now }
      calls := 0, sleeps := [] }
  | fuel + 1, attempt, _ =>
    match fetch attempt with
    | Except.ok (code, rt) =>
      { result := { url := url, status := Except.ok code
                    response_time := rt, timestamp := now }
        calls := 1, sleeps := [] }
    | Except.error e =>
      let rest := retryGo fetch url now fuel (attempt + 1) (some e)
      { result := rest.result
        calls := 1 + rest.calls
        sleeps := (if 0 < fuel then [200 * (attempt + 1)] else []) ++ rest.sleeps }

/-- Embeds `check_with_retries` (main.rs lines 207-240), with its full
execution trace: attempts run at indices `0..=max_retries`. -/
def check_with_retriesTrace (fetch : Nat → Except String (Nat × Nat))
    (url : String) (max_retries : Nat) (now : Nat) : RetryTrace :=
  retryGo fetch url now (max_retries + 1) 0 none

/-- The `WebsiteStatus` returned by `check_with_retries`. -/
def check_with_retries (fetch : Nat → Except String (Nat × Nat))
    (url : String) (max_retries : Nat) (now : Nat) : WebsiteStatus :=
  (check_with_retriesTrace fetch url max_retries now).result

/-- The enqueue loop of a round (main.rs lines 382-387): walk the URL
list, reading the shutdown flag before each push and breaking as soon as
it is observed set. `stop` gives the value the flag shows at the n-th
read of this loop (reads are counted from `obs`); the result is the
number of jobs actually pushed onto the job queue. -/
def pushedCount (stop : Nat → Bool) : Nat → Nat → Nat
  | 0, _ => 0
  | n + 1, obs => if stop obs then 0 else 1 + pushedCount stop n (obs + 1)

/-- The collect loop of a round (main.rs lines 390-403): iterate
`expected = cfg.urls.len()` times, performing one blocking `recv` on the
result channel per iteration; a `recv` that reports the channel closed
(`closed i = true` for the i-th receive of the round) still happened, but
breaks the loop. The result is the number of `recv` calls performed. -/
def collectLoop (closed : Nat → Bool) : Nat → Nat → Nat
  | 0, _ => 0
  | n + 1, i => if closed i then 1 else 1 + collectLoop closed n (i + 1)

/-- The chunked sleep between rounds (main.rs lines 414-422): up to `k`
chunks of 200 ms, reading the shutdown flag before each chunk and
breaking when it is set. Returns the number of chunks actually slept. -/
def sleepLoop (stop : Nat → Bool) : Nat → Nat → Nat
  | 0, _ => 0
  | k + 1, obs => if stop obs then 0 else 1 + sleepLoop stop k (obs + 1)

/-- Observable phases of one main-loop iteration of the Round Scheduler. -/
inductive SchedEvent where
  | enqueue (pushed : Nat)
  | collect (receives : Nat)
  | sleep (chunksSlept : Nat)
  deriving Repr, DecidableEq

/-- The Round Scheduler main loop (main.rs lines 375-423), as the list of
phase events it performs. `urlsLen` is `cfg.urls.len()`; `stop` is the
sequence of values the shutdown flag shows at successive reads (reads are
numbered globally by `obs`); `fuel` bounds the number of iterations
modelled (the loop itself is unbounded when a period is set). Each
iteration: read the flag at the loop top (line 377; break if set), run
the enqueue loop (one read per URL considered, lines 382-387), perform
`urlsLen` receives (lines 390-403; the scheduler still holds `job_tx`, so
no worker has exited and the result channel cannot be closed during a
round — receives number exactly `urlsLen`), then if no period is
configured break (lines 408-410), else sleep in `⌈period/200⌉` chunks of
200 ms with one flag read before each chunk (lines 413-422) and loop.
`period` is in milliseconds. -/
def schedLoop (urlsLen : Nat) (period : Option Nat) (stop : Nat → Bool) :
    Nat → Nat → List SchedEvent
  | 0, _ => []
  | fuel + 1, obs =>
    if stop obs then []
    else
      let pushed := pushedCount stop urlsLen (obs + 1)
      let obsA := obs + 1 + pushed + (if pushed < urlsLen then 1 else 0)
      match period with
      | none => [SchedEvent.enqueue pushed, SchedEvent.collect urlsLen]
      | some p =>
        let k := (p + 199) / 200
        let slept := sleepLoop stop k obsA
        let obsB := obsA + (if slept < k then slept + 1 else k)
        SchedEvent.enqueue pushed :: SchedEvent.collect urlsLen ::
          SchedEvent.sleep slept :: schedLoop urlsLen (some p) stop fuel obsB

/-- State of the Job Queue & Worker Pool as seen through the job channel:
the queued jobs in FIFO order, whether the submission side has been
closed (`job_tx` dropped), how many workers are still running (workers
are symmetric, so a count suffices), and the results sent so far on the
result channel. -/
structure PoolState where
  queue : List String
  closed : Bool
  running : Nat
  results : List WebsiteStatus

/-- One step of the worker loop (main.rs lines 350-366), parameterised by
`process`, the `check_with_retries` outcome for a given URL. A running
worker either receives the next queued job, processes it and sends the
result (`take`), or — when the queue is empty and closed, so `recv`
returns `Err` — exits without sending anything (`exit`). A worker whose
`recv` finds the queue empty but open blocks: no step exists. -/
inductive PoolStep (process : String → WebsiteStatus) :
    PoolState → PoolState → Prop
  | take (s : PoolState) (u : String) (rest : List String) :
      s.queue = u :: rest → 0 < s.running →
      PoolStep process s { s with queue := rest, results := s.results ++ [process u] }
  | exit (s : PoolState) :
      s.queue = [] → s.closed = true → 0 < s.running →
      PoolStep process s { s with running := s.running - 1 }

/-- Dropping `job_tx` (main.rs line 426): closes the submission side of
the job queue; nothing else changes. -/
def closeQueue (s : PoolState) : PoolState := { s with closed := true }

/-- Extracts the reason string of a failed fetch outcome (and `""` from a
success; used only where the outcome is known to be a failure). -/
def errOf (fetch : Nat → Except String (Nat × Nat)) (j : Nat) : String :=
  match fetch j with
  | Except.error e => e
  | Except.ok _ => ""

lemma retryGo_zero (fetch : Nat → Except String (Nat × Nat)) (url : String)
    (now a : Nat) (le : Option String) :
    retryGo fetch url now 0 a le =
      { result := { url := url, status := Except.error (le.getD "unknown error")
                    response_time := 0, timestamp := now }
        calls := 0, sleeps := [] } := rfl

lemma retryGo_succ_ok (fetch : Nat → Except String (Nat × Nat)) (url : String)
    (now f a c rt : Nat) (le : Option String) (h : fetch a = Except.ok (c, rt)) :
    retryGo fetch url now (f + 1) a le =
      { result := { url := url, status := Except.ok c
                    response_time := rt, timestamp := now }
        calls := 1, sleeps := [] } := by
  simp [retryGo, h]

lemma retryGo_succ_err (fetch : Nat → Except String (Nat × Nat)) (url : String)
    (now f a : Nat) (le : Option String) (e : String) (h : fetch a = Except.error e) :
    retryGo fetch url now (f + 1) a le =
      { result := (retryGo fetch url now f (a + 1) (some e)).result
        calls := 1 + (retryGo fetch url now f (a + 1) (some e)).calls
        sleeps := (if 0 < f then [200 * (a + 1)] else [])
          ++ (retryGo fetch url now f (a + 1) (some e)).sleeps } := by
  simp [retryGo, h]

lemma retryGo_calls_le (fetch : Nat → Except String (Nat × Nat)) (url : String)
    (now : Nat) : ∀ (fuel a : Nat) (le : Option String),
      (retryGo fetch url now fuel a le).calls ≤ fuel := by
  intro fuel
  induction fuel with
  | zero => intro a le; simp [retryGo_zero]
  | succ f ih =>
    intro a le
    cases h : fetch a with
    | ok v =>
      obtain ⟨c, rt⟩ := v
      simp [retryGo_succ_ok fetch url now f a c rt le h]
    | error e =>
      rw [retryGo_succ_err fetch url now f a le e h]
      have := ih (a + 1) (some e)
      simp
      omega

lemma backoff_cons (a k : Nat) :
    200 * (a + 1) :: (List.range k).map (fun j => 200 * (a + 1 + j + 1))
      = (List.range (k + 1)).map (fun j => 200 * (a + j + 1)) := by
  rw [List.range_succ_eq_map, List.map_cons, List.map_map]
  have h : ((fun j => 200 * (a + j + 1)) ∘ Nat.succ) = fun j => 200 * (a + 1 + j + 1) := by
    funext j
    simp [Function.comp]
    ring
  rw [h]

lemma retryGo_success (fetch : Nat → Except String (Nat × Nat)) (url : String)
    (now : Nat) : ∀ (k fuel a : Nat) (le : Option String) (c rt : Nat),
      k < fuel →
      (∀ j, j < k → ∃ e, fetch (a + j) = Except.error e) →
      fetch (a + k) = Except.ok (c, rt) →
      retryGo fetch url now fuel a le =
        { result := { url := url, status := Except.ok c
                      response_time := rt, timestamp := now }
          calls := k + 1
          sleeps := (List.range k).map (fun j => 200 * (a + j + 1)) } := by
  intro k
  induction k with
  | zero =>
    intro fuel a le c rt hk hprev hok
    cases fuel with
    | zero => omega
    | succ f =>
      rw [Nat.add_zero] at hok
      rw [retryGo_succ_ok fetch url now f a c rt le hok]
      simp
  | succ m ih =>
    intro fuel a le c rt hk hprev hok
    cases fuel with
    | zero => omega
    | succ f =>
      obtain ⟨e, he⟩ : ∃ e, fetch a = Except.error e := by
        have := hprev 0 (by omega)
        simpa using this
      rw [retryGo_succ_err fetch url now f a le e he]
      have hprev' : ∀ j, j < m → ∃ e, fetch (a + 1 + j) = Except.error e := by
        intro j hj
        have := hprev (j + 1) (by omega)
        have harith : a + (j + 1) = a + 1 + j := by omega
        rwa [harith] at this
      have hok' : fetch (a + 1 + m) = Except.ok (c, rt) := by
        have harith : a + (m + 1) = a + 1 + m := by omega
        rwa [harith] at hok
      rw [ih f (a + 1) (some e) c rt (by omega) hprev' hok']
      have hfpos : 0 < f := by omega
      simp only [RetryTrace.mk.injEq, if_pos hfpos]
      refine ⟨trivial, by omega, ?_⟩
      simpa using backoff_cons a m

lemma retryGo_all_fail (fetch : Nat → Except String (Nat × Nat)) (url : String)
    (now : Nat) (e : Nat → String) :
    ∀ (fuel a : Nat) (le : Option String), 0 < fuel →
      (∀ j, j < fuel → fetch (a + j) = Except.error (e (a + j))) →
      retryGo fetch url now fuel a le =
        { result := { url := url, status := Except.error (e (a + fuel - 1))
                      response_time := 0, timestamp := now }
          calls := fuel
          sleeps := (List.range (fuel - 1)).map (fun j => 200 * (a + j + 1)) } := by
  intro fuel
  induction fuel with
  | zero => intro a le h; omega
  | succ f ih =>
    intro a le _ hfail
    have he : fetch a = Except.error (e a) := by
      have := hfail 0 (by omega)
      simpa using this
    rw [retryGo_succ_err fetch url now f a le (e a) he]
    rcases Nat.eq_zero_or_pos f with hf0 | hfpos
    · subst hf0
      simp [retryGo_zero]
    · have hfail' : ∀ j, j < f → fetch (a + 1 + j) = Except.error (e (a + 1 + j)) := by
        intro j hj
        have := hfail (j + 1) (by omega)
        have harith : a + (j + 1) = a + 1 + j := by omega
        rwa [harith] at this
      rw [ih (a + 1) (some (e a)) hfpos hfail']
      have harith : a + 1 + f - 1 = a + (f + 1) - 1 := by omega
      simp only [RetryTrace.mk.injEq, if_pos hfpos, harith]
      refine ⟨trivial, by omega, ?_⟩
      have hc := backoff_cons a (f - 1)
      have hf1 : f - 1 + 1 = f := by omega
      rw [hf1] at hc
      simpa using hc

lemma pool_no_step_of_done (process : String → WebsiteStatus) (s : PoolState)
    (h : s.running = 0) : ∀ u, ¬ PoolStep process s u := by
  intro u hstep
  cases hstep with
  | take _ _ _ hrun => omega
  | exit _ _ hrun => omega

lemma pool_drain (process : String → WebsiteStatus) :
    ∀ (q : List String) (s : PoolState), s.closed = true → 0 < s.running →
      s.queue = q →
      ∃ t, Relation.ReflTransGen (PoolStep process) s t
        ∧ t.queue = [] ∧ t.closed = true ∧ t.running = s.running
        ∧ t.results = s.results ++ q.map process := by
  intro q
  induction q with
  | nil =>
    intro s hc hr hq
    exact ⟨s, Relation.ReflTransGen.refl, hq, hc, rfl, by simp⟩
  | cons u rest ih =>
    intro s hc hr hq
    have hstep : PoolStep process s
        { s with queue := rest, results := s.results ++ [process u] } :=
      PoolStep.take s u rest hq hr
    obtain ⟨t, htsteps, htq, htc, htr, htres⟩ :=
      ih { s with queue := rest, results := s.results ++ [process u] } hc hr rfl
    refine ⟨t, Relation.ReflTransGen.head hstep htsteps, htq, htc, htr, ?_⟩
    simp only at htres
    rw [htres]
    simp

lemma pool_exit_all (process : String → WebsiteStatus) :
    ∀ (n : Nat) (s : PoolState), s.closed = true → s.queue = [] → s.running = n →
      ∃ t, Relation.ReflTransGen (PoolStep process) s t
        ∧ t.queue = [] ∧ t.running = 0 ∧ t.results = s.results := by
  intro n
  induction n with
  | zero =>
    intro s _ hq hr
    exact ⟨s, Relation.ReflTransGen.refl, hq, hr, rfl⟩
  | succ m ih =>
    intro s hc hq hr
    have hstep : PoolStep process s { s with running := s.running - 1 } :=
      PoolStep.exit s hq hc (by omega)
    obtain ⟨t, htsteps, htq, htr, htres⟩ :=
      ih { s with running := s.running - 1 } hc hq (by simp [hr])
    exact ⟨t, Relation.ReflTransGen.head hstep htsteps, htq, htr, htres⟩

lemma applyRecords_preserves (ops : List (Bool × Nat)) :
    ∀ s : UrlStats, s.successes ≤ s.checks →
      (applyRecords s ops).successes ≤ (applyRecords s ops).checks := by
  induction ops with
  | nil => intro s h; simpa [applyRecords] using h
  | cons op rest ih =>
    intro s h
    simp only [applyRecords, List.foldl_cons] at *
    apply ih
    cases hb : op.1 <;> simp [UrlStats.record, hb] <;> omega

lemma pushedCount_le (stop : Nat → Bool) :
    ∀ n obs : Nat, pushedCount stop n obs ≤ n := by
  intro n
  induction n with
  | zero => intro obs; simp [pushedCount]
  | succ m ih =>
    intro obs
    by_cases h : stop obs <;> simp [pushedCount, h]
    have := ih (obs + 1); omega

lemma pushedCount_no_stop (stop : Nat → Bool) (h : ∀ m, stop m = false) :
    ∀ n obs : Nat, pushedCount stop n obs = n := by
  intro n
  induction n with
  | zero => intro obs; simp [pushedCount]
  | succ m ih => intro obs; simp [pushedCount, h, ih]; omega

lemma collectLoop_open (n : Nat) : ∀ i, collectLoop (fun _ => false) n i = n := by
  induction n with
  | zero => intro i; simp [collectLoop]
  | succ m ih => intro i; simp [collectLoop, ih]; omega

end Sitecheck

namespace Sitecheck

/-- Claim C6: each `record` call increments `checks` by exactly one and
increments `successes` by one exactly when `ok` is true; `successes ≤
checks` is preserved by every `record` step, and it holds in every state
reachable from the default (all-zero) `UrlStats` by any sequence of
`record` calls. -/
theorem urlstats_record_invariant :
    (∀ (s : UrlStats) (ok : Bool) (rt : Nat),
        (s.record ok rt).checks = s.checks + 1
        ∧ (s.record ok rt).successes = s.successes + (if ok then 1 else 0))
    ∧ (∀ (s : UrlStats) (ok : Bool) (rt : Nat), s.successes ≤ s.checks →
        (s.record ok rt).successes ≤ (s.record ok rt).checks)
    ∧ (∀ ops : List (Bool × Nat),
        (applyRecords UrlStats.init ops).successes
          ≤ (applyRecords UrlStats.init ops).checks) := by
  refine ⟨?_, ?_, ?_⟩
  · intro s ok rt
    cases ok <;> simp [UrlStats.record]
  · intro s ok rt h
    cases ok <;> simp [UrlStats.record] <;> omega
  · intro ops
    exact applyRecords_preserves ops UrlStats.init (by simp [UrlStats.init])

/-- Claim C6 witness: the invariant at a concrete reachable state. -/
theorem urlstats_record_invariant_witness :
    (applyRecords UrlStats.init [(true, 10), (false, 20), (true, 5)]).successes
      ≤ (applyRecords UrlStats.init [(true, 10), (false, 20), (true, 5)]).checks :=
  urlstats_record_invariant.2.2 [(true, 10), (false, 20), (true, 5)]

/-- Claim C7: with `checks = 0` both derived statistics are 0 (no
division by zero is performed); with `checks > 0`, `uptime` is
`successes / checks * 100` and `avg_ms` is `total_response_ms / checks`. -/
theorem urlstats_zero_guard :
    ∀ s : UrlStats,
      (s.checks = 0 → s.uptime = 0 ∧ s.avg_ms = 0)
      ∧ (0 < s.checks →
          s.uptime = (s.successes : ℚ) / (s.checks : ℚ) * 100
          ∧ s.avg_ms = (s.total_response_ms : ℚ) / (s.checks : ℚ)) := by
  intro s
  constructor
  · intro h
    simp [UrlStats.uptime, UrlStats.avg_ms, h]
  · intro h
    have hne : s.checks ≠ 0 := Nat.pos_iff_ne_zero.mp h
    constructor
    · rw [UrlStats.uptime, if_neg hne]; ring
    · rw [UrlStats.avg_ms, if_neg hne]

/-- Claim C7 witness: concrete evaluations at `checks = 0` and at a
populated state (2 successes out of 4 checks, 10 ms total). -/
theorem urlstats_zero_guard_witness :
    UrlStats.uptime ⟨0, 0, 0⟩ = 0 ∧ UrlStats.avg_ms ⟨0, 0, 0⟩ = 0
    ∧ UrlStats.uptime ⟨4, 2, 10⟩ = 50 := by
  refine ⟨((urlstats_zero_guard ⟨0, 0, 0⟩).1 rfl).1,
          ((urlstats_zero_guard ⟨0, 0, 0⟩).1 rfl).2, ?_⟩
  have h := ((urlstats_zero_guard ⟨4, 2, 10⟩).2 (by norm_num)).1
  rw [h]; norm_num

/-- Claim C1 counterexample: with two configured URLs and a shutdown
request observed at the between-push check before the second URL, only
one job is pushed, yet the collect loop still performs two receives
(`expected = cfg.urls.len()`, main.rs line 390) — the number of receives
does not equal the number of jobs pushed. -/
theorem collect_receives_counterexample :
    pushedCount (fun i => decide (0 < i)) 2 0 = 1
    ∧ collectLoop (fun _ => false) 2 0 = 2
    ∧ collectLoop (fun _ => false) 2 0 ≠ pushedCount (fun i => decide (0 < i)) 2 0 := by
  decide

/-- Claim C1 amended: in its Collecting state the scheduler performs the
receive loop exactly `len(Config.urls)` times (while the result channel
stays open), independently of how many jobs the Enqueuing state actually
pushed; an aborted enqueue pushes at most `len(urls)` jobs but does not
reduce the receive count. -/
theorem collect_receives_equals_urls_len :
    ∀ (stop : Nat → Bool) (n obs : Nat),
      pushedCount stop n obs ≤ n ∧ collectLoop (fun _ => false) n 0 = n := by
  intro stop n obs
  exact ⟨pushedCount_le stop n obs, collectLoop_open n 0⟩

/-- Claim C8: with no period configured the scheduler never emits a
sleep phase; under no shutdown request it runs exactly one round — one
Enqueuing phase (pushing all URLs) and one Collecting phase — and
terminates, its trace independent of any further fuel. -/
theorem period_absent_single_round :
    ∀ (urlsLen fuel obs : Nat) (stop : Nat → Bool),
      (∀ ev ∈ schedLoop urlsLen none stop fuel obs, ∀ k, ev ≠ SchedEvent.sleep k)
      ∧ (0 < fuel →
          schedLoop urlsLen none stop fuel obs = schedLoop urlsLen none stop 1 obs)
      ∧ ((∀ m, stop m = false) → 0 < fuel →
          schedLoop urlsLen none stop fuel obs
            = [SchedEvent.enqueue urlsLen, SchedEvent.collect urlsLen]) := by
  intro urlsLen fuel obs stop
  refine ⟨?_, ?_, ?_⟩
  · intro ev hev k
    cases fuel with
    | zero => simp [schedLoop] at hev
    | succ f =>
      by_cases h : stop obs <;> simp [schedLoop, h] at hev
      rcases hev with h1 | h1 <;> simp [h1]
  · intro hf
    cases fuel with
    | zero => omega
    | succ f => by_cases h : stop obs <;> simp [schedLoop, h]
  · intro hstop hf
    cases fuel with
    | zero => omega
    | succ f =>
      simp [schedLoop, hstop, pushedCount_no_stop stop hstop]

/-- Claim C8 witness: three configured URLs, no period, no shutdown
request, any fuel — the trace is a single enqueue-all / collect-all
round. -/
theorem period_absent_single_round_witness :
    schedLoop 3 none (fun _ => false) 5 0
      = [SchedEvent.enqueue 3, SchedEvent.collect 3] :=
  (period_absent_single_round 3 5 0 (fun _ => false)).2.2 (fun _ => rfl) (by decide)

/-- Claim C2: the retry loop invokes the Check Engine at most
`max_retries + 1` times; on the first successful attempt `i` it returns
immediately with that attempt's status code and elapsed time, having made
`i + 1` calls, after sleeping exactly `200 * (j + 1)` ms following each
failed attempt `j < i`; when every permitted attempt fails it makes
exactly `max_retries + 1` calls and sleeps after each failed attempt
except the final one (backoffs `200, 400, ..., 200 * max_retries` ms). -/
theorem retry_policy_spec :
    ∀ (fetch : Nat → Except String (Nat × Nat)) (url : String) (mr now : Nat),
      (check_with_retriesTrace fetch url mr now).calls ≤ mr + 1
      ∧ (∀ i c rt, i ≤ mr →
          (∀ j, j < i → ∃ e, fetch j = Except.error e) →
          fetch i = Except.ok (c, rt) →
          check_with_retriesTrace fetch url mr now =
            { result := { url := url, status := Except.ok c
                          response_time := rt, timestamp := now }
              calls := i + 1
              sleeps := (List.range i).map (fun j => 200 * (j + 1)) })
      ∧ ((∀ j, j ≤ mr → ∃ e, fetch j = Except.error e) →
          (check_with_retriesTrace fetch url mr now).calls = mr + 1
          ∧ (check_with_retriesTrace fetch url mr now).sleeps =
              (List.range mr).map (fun j => 200 * (j + 1))) := by
  intro fetch url mr now
  refine ⟨retryGo_calls_le fetch url now (mr + 1) 0 none, ?_, ?_⟩
  · intro i c rt hi hprev hok
    have h := retryGo_success fetch url now i (mr + 1) 0 none c rt (by omega)
      (by intro j hj; simpa using hprev j hj) (by simpa using hok)
    rw [check_with_retriesTrace, h]
    simp
  · intro hall
    have hfail : ∀ j, j < mr + 1 → fetch (0 + j) = Except.error (errOf fetch (0 + j)) := by
      intro j hj
      obtain ⟨e, he⟩ := hall j (by omega)
      simp only [Nat.zero_add]
      rw [he, errOf, he]
    have h := retryGo_all_fail fetch url now (errOf fetch) (mr + 1) 0 none (by omega) hfail
    rw [check_with_retriesTrace, h]
    simp

/-- Claim C2 witness: attempt 0 fails, attempt 1 succeeds with status 200
in 7 ms, budget of 3 retries — two calls total and a single 200 ms
backoff. -/
theorem retry_policy_spec_witness :
    check_with_retriesTrace
        (fun i => if i = 1 then Except.ok (200, 7) else Except.error ("e" ++ toString i))
        "u" 3 5
      = { result := { url := "u", status := Except.ok 200, response_time := 7, timestamp := 5 }
          calls := 1 + 1
          sleeps := (List.range 1).map (fun j => 200 * (j + 1)) } :=
  (retry_policy_spec
      (fun i => if i = 1 then Except.ok (200, 7) else Except.error ("e" ++ toString i))
      "u" 3 5).2.1 1 200 7 (by omega)
    (by intro j hj; interval_cases j; exact ⟨"e" ++ toString 0, rfl⟩) rfl

/-- Claim C3: when every one of the `max_retries + 1` attempts fails, the
returned `WebsiteStatus` is a failure carrying exactly the reason string
of the last attempt (index `max_retries`), with zero elapsed time and the
clock value read at completion as its timestamp. -/
theorem retry_all_fail_result :
    ∀ (fetch : Nat → Except String (Nat × Nat)) (e : Nat → String)
      (url : String) (mr now : Nat),
      (∀ j, j ≤ mr → fetch j = Except.error (e j)) →
      check_with_retries fetch url mr now =
        { url := url, status := Except.error (e mr)
          response_time := 0, timestamp := now } := by
  intro fetch e url mr now hall
  have hfail : ∀ j, j < mr + 1 → fetch (0 + j) = Except.error (e (0 + j)) := by
    intro j hj
    simpa using hall j (by omega)
  rw [check_with_retries, check_with_retriesTrace,
    retryGo_all_fail fetch url now e (mr + 1) 0 none (by omega) hfail]
  simp

/-- Claim C3 witness: three attempts, all failing with distinct reasons —
the result keeps only the last reason, zero elapsed time, timestamp 5. -/
theorem retry_all_fail_result_witness :
    check_with_retries (fun i => Except.error ("e" ++ toString i)) "u" 2 5
      = { url := "u", status := Except.error ("e" ++ toString 2)
          response_time := 0, timestamp := 5 } :=
  retry_all_fail_result (fun i => Except.error ("e" ++ toString i))
    (fun i => "e" ++ toString i) "u" 2 5 (fun _ _ => rfl)

/-- Claim C4: header validation looks each configured name up
case-insensitively; a missing header short-circuits with
`missing required header: <name>`, a present header with a different
value short-circuits with
`header mismatch: <name> expected '<expected>' got '<actual>'`, an exact
match moves on to the remaining pairs; the whole list passes exactly when
every configured pair matches, and any header-validation failure is the
value `fetch_once` returns. -/
theorem header_validation_spec :
    (∀ (headers : List (String × String)) (n₁ n₂ : String),
        lowerStr n₁ = lowerStr n₂ → headerLookup headers n₁ = headerLookup headers n₂)
    ∧ (∀ (rh : List (String × String)) (name value : String)
          (rest : List (String × String)),
        headerLookup rh name = none →
        checkHeaders rh ((name, value) :: rest)
          = Except.error ("missing required header: " ++ name))
    ∧ (∀ (rh : List (String × String)) (name value v : String)
          (rest : List (String × String)),
        headerLookup rh name = some v → v ≠ value →
        checkHeaders rh ((name, value) :: rest)
          = Except.error ("header mismatch: " ++ name ++ " expected '" ++ value
              ++ "' got '" ++ v ++ "'"))
    ∧ (∀ (rh : List (String × String)) (name value : String)
          (rest : List (String × String)),
        headerLookup rh name = some value →
        checkHeaders rh ((name, value) :: rest) = checkHeaders rh rest)
    ∧ (∀ (rh expected : List (String × String)),
        checkHeaders rh expected = Except.ok ()
          ↔ ∀ p ∈ expected, headerLookup rh p.1 = some p.2)
    ∧ (∀ (r : Response) (hs : List (String × String)) (contains : Option String)
          (el : Nat) (e : String),
        checkHeaders r.headers hs = Except.error e →
        fetch_once (Except.ok r) hs contains el = Except.error e) := by
  refine ⟨?_, ?_, ?_, ?_, ?_, ?_⟩
  · intro headers n₁ n₂ h
    simp [headerLookup, h]
  · intro rh name value rest h
    simp [checkHeaders, h]
  · intro rh name value v rest h hne
    simp [checkHeaders, h, hne]
  · intro rh name value rest h
    simp [checkHeaders, h]
  · intro rh expected
    induction expected with
    | nil => simp [checkHeaders]
    | cons p rest ih =>
      obtain ⟨name, value⟩ := p
      cases h : headerLookup rh name with
      | none => simp [checkHeaders, h]
      | some v =>
        by_cases hv : v = value
        · subst hv
          simp [checkHeaders, h, ih]
        · simp [checkHeaders, h, hv]
  · intro r hs contains el e h
    simp [fetch_once, h]

/-- Claim C4 witness: a present-but-mismatched header, a missing header,
and a case-insensitive exact match, each evaluated concretely. -/
theorem header_validation_spec_witness :
    checkHeaders [("Server", "nginx")] [("server", "apache")]
      = Except.error ("header mismatch: " ++ "server" ++ " expected '" ++ "apache"
          ++ "' got '" ++ "nginx" ++ "'")
    ∧ checkHeaders [("Server", "nginx")] [("X", "1")]
      = Except.error ("missing required header: " ++ "X")
    ∧ checkHeaders [("Server", "nginx")] [("server", "nginx")] = Except.ok () :=
  ⟨header_validation_spec.2.2.1 [("Server", "nginx")] "server" "apache" "nginx" []
      (by decide) (by decide),
    header_validation_spec.2.1 [("Server", "nginx")] "X" "1" [] (by decide),
    (header_validation_spec.2.2.2.2.1 [("Server", "nginx")]
        [("server", "nginx")]).mpr (by decide)⟩

/-- Claim C5: with a required body substring configured (and headers
passing), the body is read and searched — absence of the substring fails
with `body validation failed: missing substring '<substring>'`, presence
yields the status code and elapsed time; with no substring configured the
body is never inspected: the outcome is identical for any two responses
differing only in their body. -/
theorem body_validation_spec :
    (∀ (r : Response) (hs : List (String × String)) (needle b : String) (el : Nat),
        checkHeaders r.headers hs = Except.ok () →
        r.body = Except.ok b → strContains b needle = false →
        fetch_once (Except.ok r) hs (some needle) el
          = Except.error ("body validation failed: missing substring '" ++ needle ++ "'"))
    ∧ (∀ (r : Response) (hs : List (String × String)) (needle b : String) (el : Nat),
        checkHeaders r.headers hs = Except.ok () →
        r.body = Except.ok b → strContains b needle = true →
        fetch_once (Except.ok r) hs (some needle) el = Except.ok (r.status, el))
    ∧ (∀ (status : Nat) (hdrs : List (String × String))
          (b₁ b₂ : Except String String) (hs : List (String × String)) (el : Nat),
        fetch_once (Except.ok ⟨status, hdrs, b₁⟩) hs none el
          = fetch_once (Except.ok ⟨status, hdrs, b₂⟩) hs none el) := by
  refine ⟨?_, ?_, ?_⟩
  · intro r hs needle b el hh hb hc
    simp [fetch_once, hh, hb, hc]
  · intro r hs needle b el hh hb hc
    simp [fetch_once, hh, hb, hc]
  · intro status hdrs b₁ b₂ hs el
    rfl

/-- Claim C5 witness: body `"foo bar baz"` — searching for `"bar"`
passes with the status and elapsed time, searching for `"nope"` fails
with the body-validation reason. -/
theorem body_validation_spec_witness :
    fetch_once (Except.ok ⟨200, [], Except.ok "foo bar baz"⟩) [] (some "nope") 3
      = Except.error ("body validation failed: missing substring '" ++ "nope" ++ "'")
    ∧ fetch_once (Except.ok ⟨200, [], Except.ok "foo bar baz"⟩) [] (some "bar") 3
      = Except.ok (200, 3) :=
  ⟨body_validation_spec.1 ⟨200, [], Except.ok "foo bar baz"⟩ [] "nope" "foo bar baz" 3
      rfl rfl (by decide),
    body_validation_spec.2.1 ⟨200, [], Except.ok "foo bar baz"⟩ [] "bar" "foo bar baz" 3
      rfl rfl (by decide)⟩

/-- Claim C10: when a body substring is required but reading the body
fails, `fetch_once` returns a failure whose reason is prefixed
`body read error: ` — a fifth failure category — and the Retry Policy
treats it like any other failure: all `max_retries + 1` attempts are made
and the final result carries that reason. -/
theorem body_read_error_retried :
    ∀ (r : Response) (hs : List (String × String)) (needle : String)
      (el : Nat) (e url : String) (mr now : Nat),
      checkHeaders r.headers hs = Except.ok () → r.body = Except.error e →
      fetch_once (Except.ok r) hs (some needle) el
          = Except.error ("body read error: " ++ e)
      ∧ (check_with_retriesTrace
            (fun _ => fetch_once (Except.ok r) hs (some needle) el) url mr now).calls
          = mr + 1
      ∧ (check_with_retries
            (fun _ => fetch_once (Except.ok r) hs (some needle) el) url mr now).status
          = Except.error ("body read error: " ++ e) := by
  intro r hs needle el e url mr now hh hb
  have hf : fetch_once (Except.ok r) hs (some needle) el
      = Except.error ("body read error: " ++ e) := by
    simp [fetch_once, hh, hb]
  have hfail : ∀ j, j < mr + 1 →
      (fun _ => fetch_once (Except.ok r) hs (some needle) el) (0 + j)
        = Except.error ("body read error: " ++ e) := by
    intro j _
    exact hf
  have h := retryGo_all_fail (fun _ => fetch_once (Except.ok r) hs (some needle) el)
    url now (fun _ => "body read error: " ++ e) (mr + 1) 0 none (by omega) hfail
  refine ⟨hf, ?_, ?_⟩
  · rw [check_with_retriesTrace, h]
  · rw [check_with_retries, check_with_retriesTrace, h]

/-- Claim C10 witness: a response whose body read fails with
`broken pipe`, one retry permitted — two calls, final status the
`body read error` reason. -/
theorem body_read_error_retried_witness :
    fetch_once (Except.ok ⟨200, [], Except.error "broken pipe"⟩) [] (some "x") 3
        = Except.error ("body read error: " ++ "broken pipe")
    ∧ (check_with_retriesTrace
          (fun _ => fetch_once (Except.ok ⟨200, [], Except.error "broken pipe"⟩) [] (some "x") 3)
          "u" 1 5).calls = 1 + 1
    ∧ (check_with_retries
          (fun _ => fetch_once (Except.ok ⟨200, [], Except.error "broken pipe"⟩) [] (some "x") 3)
          "u" 1 5).status = Except.error ("body read error: " ++ "broken pipe") :=
  body_read_error_retried ⟨200, [], Except.error "broken pipe"⟩ [] "x" 3
    "broken pipe" "u" 1 5 rfl rfl

/-- Claim C9: once the main thread stops enqueuing and closes the
job-submission side of the queue (`closeQueue`, the drop of `job_tx`), a
pool with at least one running worker is never blocked (some step always
exists), and the system runs to a terminal state in which the queue is
fully drained, every queued job has produced exactly one result in FIFO
order, every worker has exited — contributing no partial result on exit —
and no further step is possible, so joining all workers succeeds and
shutdown can be reported complete. -/
theorem shutdown_drain_join :
    ∀ (process : String → WebsiteStatus) (s : PoolState), 0 < s.running →
      (∃ s', PoolStep process (closeQueue s) s')
      ∧ ∃ t, Relation.ReflTransGen (PoolStep process) (closeQueue s) t
          ∧ t.queue = [] ∧ t.running = 0
          ∧ t.results = s.results ++ s.queue.map process
          ∧ ∀ u, ¬ PoolStep process t u := by
  intro process s hr
  constructor
  · cases hq : s.queue with
    | nil =>
      exact ⟨_, PoolStep.exit (closeQueue s) (by simp [closeQueue, hq])
        (by simp [closeQueue]) (by simpa [closeQueue] using hr)⟩
    | cons u rest =>
      exact ⟨_, PoolStep.take (closeQueue s) u rest (by simp [closeQueue, hq])
        (by simpa [closeQueue] using hr)⟩
  · obtain ⟨t₁, hsteps₁, hq₁, hc₁, hr₁, hres₁⟩ :=
      pool_drain process s.queue (closeQueue s) rfl
        (by simpa [closeQueue] using hr) rfl
    obtain ⟨t₂, hsteps₂, hq₂, hr₂, hres₂⟩ :=
      pool_exit_all process t₁.running t₁ hc₁ hq₁ rfl
    refine ⟨t₂, hsteps₁.trans hsteps₂, hq₂, hr₂, ?_, pool_no_step_of_done process t₂ hr₂⟩
    rw [hres₂, hres₁]
    rfl

/-- Claim C9 witness: two workers, one queued job `"a"` at close time —
the pool steps to the terminal state where the job's result was sent,
both workers exited, and no step remains. -/
theorem shutdown_drain_join_witness :
    (∃ s', PoolStep (fun u => ⟨u, Except.ok 200, 1, 0⟩)
        (closeQueue ⟨["a"], false, 2, []⟩) s')
    ∧ ∃ t, Relation.ReflTransGen (PoolStep (fun u => ⟨u, Except.ok 200, 1, 0⟩))
        (closeQueue ⟨["a"], false, 2, []⟩) t
        ∧ t.queue = [] ∧ t.running = 0
        ∧ t.results = ([] : List WebsiteStatus) ++ ["a"].map (fun u => ⟨u, Except.ok 200, 1, 0⟩)
        ∧ ∀ u, ¬ PoolStep (fun u => ⟨u, Except.ok 200, 1, 0⟩) t u :=
  shutdown_drain_join (fun u => ⟨u, Except.ok 200, 1, 0⟩) ⟨["a"], false, 2, []⟩
    (by decide)

end Sitecheck
